import Mathlib

/-!
Shallow embedding of `upg.py`, a single-file git-based upgrade helper for a
customized Totara fork.  The script runs a linear pipeline of git commands
(fetch, diff, merge, diff, checkout/add) and one pure set operation
(`get_safe`).  External commands are modelled by a `World` mapping a command
line to its exit status and captured output; executing the script is modelled
in the `EStateM` monad over a state recording the trace of spawned commands
and the lines printed to standard output.  `sys.exit(msg)` is modelled by the
exception of the monad, which preserves the state accumulated so far.
-/

namespace Upg

/-- Result of spawning one external command: its exit status (`returncode`),
captured standard output and captured standard error. -/
structure CmdResult where
  status : Int
  out : String
  err : String
  deriving DecidableEq, Repr

/-- The environment: what each external command would return if spawned. -/
abbrev World := List String → CmdResult

/-- Observable process state: the list of command lines spawned so far, and
the lines printed to standard output so far. -/
structure PState where
  trace : List (List String)
  output : List String
  deriving DecidableEq, Repr

/-- The monad of the script: state `PState` plus the fatal exit
`sys.exit(msg)` carrying its diagnostic message. -/
abbrev M := EStateM String PState

/-- Python 2 `str.splitlines`: split on `\n`, `\r` and `\r\n`, with no empty
line produced by a trailing line terminator. -/
def splitlinesAux : List Char → List Char → List String
  | [], [] => []
  | [], acc => [String.mk acc.reverse]
  | '\r' :: '\n' :: rest, acc => String.mk acc.reverse :: splitlinesAux rest []
  | '\n' :: rest, acc => String.mk acc.reverse :: splitlinesAux rest []
  | '\r' :: rest, acc => String.mk acc.reverse :: splitlinesAux rest []
  | c :: rest, acc => splitlinesAux rest (c :: acc)

/-- Python 2 `s.splitlines()` on a string. -/
def splitlines (s : String) : List String :=
  splitlinesAux s.data []

/-- The diagnostic message of `call`:
`'SUBPROCESS EXITED WITH CODE {0}\n{1}\n{2}\n{3}'.format(status, ' '.join(cmd), out, err)`. -/
def errMsg (status : Int) (cmd : List String) (out err : String) : String :=
  "SUBPROCESS EXITED WITH CODE " ++ toString status ++ "\n" ++
    String.intercalate " " cmd ++ "\n" ++ out ++ "\n" ++ err

/-- `call(cmd, die_on_error=True)`: spawn the command (recorded in the
trace), and if the exit status is truthy (non-zero) and `die_on_error` is
truthy, exit the process with the diagnostic message; otherwise return the
captured standard output. -/
def call (w : World) (cmd : List String) (die_on_error : Bool := true) : M String :=
  fun s =>
    let s' : PState := { s with trace := s.trace ++ [cmd] }
    let r := w cmd
    if r.status != 0 && die_on_error then
      .error (errMsg r.status cmd r.out r.err) s'
    else
      .ok r.out s'

/-- `get_safe(conflicted, modified) = list(set(conflicted).difference(set(modified)))`:
the distinct conflicted paths that are not modified. -/
def get_safe (conflicted modified : List String) : List String :=
  conflicted.dedup.filter (fun f => !modified.contains f)

/-- The loop body of `fetch`: `for tag in tags: call(['git','fetch',remote,tag])`. -/
def fetchEach (w : World) (remote : String) : List String → M Unit
  | [] => pure ()
  | tag :: rest => do
    let _ ← call w ["git", "fetch", remote, tag]
    fetchEach w remote rest

/-- `fetch(remote, tags)`: fetch all tags from the remote, then fetch each
given tag individually (both with `die_on_error=True`). -/
def fetch (w : World) (remote : String) (tags : List String) : M Unit := do
  let _ ← call w ["git", "fetch", remote, "--tags"]
  fetchEach w remote tags

/-- `get_modified(tag)`: the lines of `git diff <tag> --name-only`. -/
def get_modified (w : World) (tag : String) : M (List String) := do
  let s ← call w ["git", "diff", tag, "--name-only"]
  return splitlines s

/-- `merge(tag)`: `git merge --no-ff <tag>` with `die_on_error=False`. -/
def merge (w : World) (tag : String) : M Unit := do
  let _ ← call w ["git", "merge", "--no-ff", tag] false
  return ()

/-- `get_conflicted()`: the lines of `git diff --name-only --diff-filter=U`. -/
def get_conflicted (w : World) : M (List String) := do
  let s ← call w ["git", "diff", "--name-only", "--diff-filter=U"]
  return splitlines s

/-- `accept(files)`: for each file, checkout the remote version then stage
it, both with `die_on_error=False`. -/
def accept (w : World) : List String → M Unit
  | [] => pure ()
  | fil :: rest => do
    let _ ← call w ["git", "checkout", "--theirs", fil] false
    let _ ← call w ["git", "add", fil] false
    accept w rest

/-- The lines printed by `print_advice(num_conflicted)`.  The branch on
`if num_conflicted:` is on Python truthiness, i.e. `num_conflicted != 0`. -/
def print_advice (num_conflicted : Int) : List String :=
  ["Completed with " ++ toString num_conflicted ++ " conflicts"] ++
    (if num_conflicted != 0 then
      ["Use \x27git mergetool\x27 to resolve, then \x27git commit\x27"]
    else
      ["Safe to \x27git commit\x27"]) ++
    ["Or use \x27git merge --abort\x27 to pretend this never happened"]

/-- Append printed lines to the recorded standard output. -/
def emit (lines : List String) : M Unit :=
  fun s => .ok () { s with output := s.output ++ lines }

/-- `upgrade(remote, fro, to)`: the whole pipeline, in source order. -/
def upgrade (w : World) (remote fro «to» : String) : M Unit := do
  fetch w remote [fro, «to»]
  let modified ← get_modified w fro
  merge w «to»
  let conflicted ← get_conflicted w
  let safe := get_safe conflicted modified
  accept w safe
  emit (print_advice ((conflicted.length : Int) - (safe.length : Int)))

/-! ### Properties of the safety classifier `get_safe` -/

/-- Membership characterization of `get_safe`. -/
theorem mem_get_safe {x : String} {c m : List String} :
    x ∈ get_safe c m ↔ x ∈ c ∧ x ∉ m := by
  simp [get_safe]

/-- C1: `get_safe` returns exactly the paths present in the conflicted
collection but absent from the modified collection; in particular the result
is a subset of the conflicted collection and is disjoint from the modified
collection. -/
theorem get_safe_exact_set_diff (c m : List String) :
    (get_safe c m).toFinset = c.toFinset \ m.toFinset ∧
      (get_safe c m).toFinset ⊆ c.toFinset ∧
      Disjoint (get_safe c m).toFinset m.toFinset := by
  have h : (get_safe c m).toFinset = c.toFinset \ m.toFinset := by
    ext x
    simp [mem_get_safe]
  exact ⟨h, h ▸ Finset.sdiff_subset, h ▸ Finset.sdiff_disjoint⟩

/-- C6: identity laws of the classifier: an empty conflicted collection
classifies to the empty list, and classifying against an empty modified
collection yields the conflicted collection as a set. -/
theorem get_safe_identity_laws (c m : List String) :
    get_safe [] m = [] ∧ (get_safe c []).toFinset = c.toFinset := by
  constructor
  · rfl
  · ext x
    simp [mem_get_safe]

/-- C7: the set of paths returned by `get_safe` depends only on the sets of
paths of its two arguments, hence is unchanged by permuting either input
list or by inserting duplicate entries into either input list. -/
theorem get_safe_set_extensional (c c₂ m m₂ : List String)
    (hc : c.toFinset = c₂.toFinset) (hm : m.toFinset = m₂.toFinset) :
    (get_safe c m).toFinset = (get_safe c₂ m₂).toFinset := by
  ext x
  have hcx : x ∈ c ↔ x ∈ c₂ := by rw [← List.mem_toFinset, hc, List.mem_toFinset]
  have hmx : x ∈ m ↔ x ∈ m₂ := by rw [← List.mem_toFinset, hm, List.mem_toFinset]
  simp [mem_get_safe, hcx, hmx]

/-- Witness for C7 at concrete inputs: a permutation with duplicates
inserted in both arguments yields the same set of safe paths. -/
theorem get_safe_set_extensional_witness :
    (get_safe ["a", "b"] ["b"]).toFinset = (get_safe ["b", "a", "a"] ["b", "b"]).toFinset :=
  get_safe_set_extensional ["a", "b"] ["b", "a", "a"] ["b"] ["b", "b"]
    (by decide) (by decide)

/-- C10: the list returned by `get_safe` has no duplicate elements, and its
length never exceeds the number of distinct conflicted paths. -/
theorem get_safe_nodup_and_card (c m : List String) :
    (get_safe c m).Nodup ∧ (get_safe c m).length ≤ c.toFinset.card := by
  constructor
  · exact (List.nodup_dedup c).filter _
  · rw [List.card_toFinset]
    exact List.length_filter_le _ _

/-! ### Properties of the reporter `print_advice` -/

/-- C5: on the count `conflictedCount - safeCount`, `print_advice` emits the
remaining-conflict count, then exactly one of two next-step messages — the
ready-to-finalize message when the remainder is zero and the manual
merge-tool guidance otherwise (in particular whenever it is positive) —
followed by the constant hint about aborting the merge. -/
theorem print_advice_messages (conflictedCount safeCount : ℕ) :
    print_advice ((conflictedCount : Int) - (safeCount : Int)) =
      ["Completed with " ++ toString ((conflictedCount : Int) - (safeCount : Int)) ++
          " conflicts"] ++
        (if ((conflictedCount : Int) - (safeCount : Int)) = 0 then
          ["Safe to \x27git commit\x27"]
        else
          ["Use \x27git mergetool\x27 to resolve, then \x27git commit\x27"]) ++
        ["Or use \x27git merge --abort\x27 to pretend this never happened"] := by
  simp only [print_advice, bne_iff_ne, ne_eq, ite_not]

/-! ### Running the monad -/

/-- Running a bind in `M` dispatches on the first computation's result. -/
theorem M_run_bind {α β : Type} (x : M α) (f : α → M β) (s : PState) :
    (x >>= f).run s =
      match x.run s with
      | .ok a s₁ => (f a).run s₁
      | .error e s₁ => .error e s₁ := by
  simp only [EStateM.run, Bind.bind]
  unfold EStateM.bind
  cases x s <;> rfl

/-- Running `pure` in `M` changes nothing. -/
theorem M_run_pure {α : Type} (a : α) (s : PState) :
    (pure a : M α).run s = .ok a s := rfl

/-- A successful command: `call` records it and returns its stdout. -/
theorem call_run_ok (w : World) (cmd : List String) (die : Bool)
    (h : (w cmd).status = 0) (s : PState) :
    (call w cmd die).run s = .ok (w cmd).out { s with trace := s.trace ++ [cmd] } := by
  simp [call, EStateM.run, h]

/-- With `die_on_error=False`, `call` records the command and returns its
stdout whatever the exit status. -/
theorem call_run_nofail (w : World) (cmd : List String) (s : PState) :
    (call w cmd false).run s = .ok (w cmd).out { s with trace := s.trace ++ [cmd] } := by
  simp [call, EStateM.run]

/-- A failing command with `die_on_error=True`: `call` records it and exits
with the diagnostic message. -/
theorem call_run_fail (w : World) (cmd : List String)
    (h : (w cmd).status ≠ 0) (s : PState) :
    (call w cmd true).run s =
      .error (errMsg (w cmd).status cmd (w cmd).out (w cmd).err)
        { s with trace := s.trace ++ [cmd] } := by
  simp [call, EStateM.run, h]

/-- A world in which every command succeeds with empty output. -/
def trivWorld : World := fun _ => ⟨0, "", ""⟩

/-- A world in which every command fails with exit code 1. -/
def failWorld : World := fun _ => ⟨1, "boom-out", "boom-err"⟩

/-- C3: if the command exits non-zero and `die_on_error` is true, the
process terminates with a single diagnostic containing the exit code, the
command line, the captured stdout and the captured stderr; if
`die_on_error` is false, a non-zero exit is tolerated and the caller
receives the produced output. -/
theorem call_die_on_error_behavior (w : World) (cmd : List String) (s : PState) :
    ((w cmd).status ≠ 0 →
      (call w cmd true).run s =
        .error ("SUBPROCESS EXITED WITH CODE " ++ toString (w cmd).status ++ "\n" ++
            String.intercalate " " cmd ++ "\n" ++ (w cmd).out ++ "\n" ++ (w cmd).err)
          { s with trace := s.trace ++ [cmd] }) ∧
      (call w cmd false).run s = .ok (w cmd).out { s with trace := s.trace ++ [cmd] } :=
  ⟨fun h => call_run_fail w cmd h s, call_run_nofail w cmd s⟩

/-- Witness for C3: a concrete failing command produces the concrete
diagnostic, and with `die_on_error=False` its output is returned. -/
theorem call_die_on_error_behavior_witness :
    (call failWorld ["git", "fetch", "origin", "--tags"] true).run ⟨[], []⟩ =
      .error "SUBPROCESS EXITED WITH CODE 1\ngit fetch origin --tags\nboom-out\nboom-err"
        ⟨[["git", "fetch", "origin", "--tags"]], []⟩ ∧
    (call failWorld ["git", "fetch", "origin", "--tags"] false).run ⟨[], []⟩ =
      .ok "boom-out" ⟨[["git", "fetch", "origin", "--tags"]], []⟩ := by
  have h := call_die_on_error_behavior failWorld ["git", "fetch", "origin", "--tags"] ⟨[], []⟩
  exact ⟨h.1 (by decide), h.2⟩

/-- C9: on a zero exit status `call` returns the captured stdout, and more
generally whenever `call` returns normally the returned value is exactly the
captured stdout — never the captured stderr, which occurs only in the fatal
diagnostic. -/
theorem call_returns_stdout_only (w : World) (cmd : List String) (die : Bool) (s : PState) :
    ((w cmd).status = 0 →
      (call w cmd die).run s = .ok (w cmd).out { s with trace := s.trace ++ [cmd] }) ∧
      ∀ v s₂, (call w cmd die).run s = .ok v s₂ → v = (w cmd).out := by
  refine ⟨fun h => call_run_ok w cmd die h s, fun v s₂ hv => ?_⟩
  simp only [call, EStateM.run] at hv
  split at hv
  · simp at hv
  · simp at hv
    exact hv.1.symm

/-- Witness for C9: a concrete successful command returns its stdout. -/
theorem call_returns_stdout_only_witness :
    (call trivWorld ["git", "diff", "--name-only", "--diff-filter=U"] true).run ⟨[], []⟩ =
      .ok "" ⟨[["git", "diff", "--name-only", "--diff-filter=U"]], []⟩ :=
  (call_returns_stdout_only trivWorld ["git", "diff", "--name-only", "--diff-filter=U"]
    true ⟨[], []⟩).1 rfl

/-! ### Running the pipeline -/

/-- The ModifiedSet the pipeline computes: the lines of the
`git diff <fro> --name-only` query against the source reference. -/
def modifiedOf (w : World) (fro : String) : List String :=
  splitlines (w ["git", "diff", fro, "--name-only"]).out

/-- The ConflictedSet the pipeline computes: the lines of the
`git diff --name-only --diff-filter=U` query. -/
def conflictedOf (w : World) : List String :=
  splitlines (w ["git", "diff", "--name-only", "--diff-filter=U"]).out

/-- The commands spawned by `accept`: a checkout/add pair per file, in
order. -/
def acceptTrace : List String → List (List String)
  | [] => []
  | fil :: rest => ["git", "checkout", "--theirs", fil] :: ["git", "add", fil] :: acceptTrace rest

/-- The six commands spawned by the pipeline before `accept`, in source
order: fetch all tags, fetch the source tag, fetch the target tag, diff
against the source tag, merge the target tag, list unmerged paths. -/
def mainTrace (remote fro «to» : String) : List (List String) :=
  [["git", "fetch", remote, "--tags"],
   ["git", "fetch", remote, fro],
   ["git", "fetch", remote, «to»],
   ["git", "diff", fro, "--name-only"],
   ["git", "merge", "--no-ff", «to»],
   ["git", "diff", "--name-only", "--diff-filter=U"]]

/-- Running `emit` appends the given lines to the recorded output. -/
theorem emit_run (lines : List String) (s : PState) :
    (emit lines).run s = .ok () { s with output := s.output ++ lines } := rfl

/-- `fetchEach` on successful fetches records one fetch command per tag. -/
theorem fetchEach_run_ok (w : World) (remote : String) (tags : List String)
    (h : ∀ tag ∈ tags, (w ["git", "fetch", remote, tag]).status = 0) (s : PState) :
    (fetchEach w remote tags).run s =
      .ok () { s with trace := s.trace ++ tags.map (fun tag => ["git", "fetch", remote, tag]) } := by
  induction tags generalizing s with
  | nil => simp [fetchEach, M_run_pure]
  | cons tag rest ih =>
    have htag := h tag (List.mem_cons_self tag rest)
    have ih2 := fun s₂ => ih (fun t ht => h t (List.mem_cons_of_mem tag ht)) s₂
    simp only [fetchEach, M_run_bind, call_run_ok w _ true htag, ih2]
    simp

/-- `accept` always succeeds and records a checkout/add pair per file. -/
theorem accept_run (w : World) (files : List String) (s : PState) :
    (accept w files).run s = .ok () { s with trace := s.trace ++ acceptTrace files } := by
  induction files generalizing s with
  | nil => simp [accept, acceptTrace, M_run_pure]
  | cons fil rest ih =>
    simp only [accept, M_run_bind, call_run_nofail, ih]
    simp [acceptTrace]

/-- Full characterization of a successful run of `upgrade`: when the three
fetches and the two diff queries succeed, the run succeeds (whatever the
merge and checkout/add statuses), spawns exactly the six pipeline commands
followed by the resolver's checkout/add pairs, and prints the advice for
`len(conflicted) - len(safe)` computed before resolution. -/
theorem upgrade_run_ok (w : World) (remote fro «to» : String) (s : PState)
    (h1 : (w ["git", "fetch", remote, "--tags"]).status = 0)
    (h2 : (w ["git", "fetch", remote, fro]).status = 0)
    (h3 : (w ["git", "fetch", remote, «to»]).status = 0)
    (h4 : (w ["git", "diff", fro, "--name-only"]).status = 0)
    (h5 : (w ["git", "diff", "--name-only", "--diff-filter=U"]).status = 0) :
    (upgrade w remote fro «to»).run s =
      .ok () { trace := s.trace ++ mainTrace remote fro «to» ++
                 acceptTrace (get_safe (conflictedOf w) (modifiedOf w fro)),
               output := s.output ++ print_advice
                 (((conflictedOf w).length : Int) -
                   ((get_safe (conflictedOf w) (modifiedOf w fro)).length : Int)) } := by
  have hfe := fetchEach_run_ok w remote [fro, «to»] (by
    intro t ht
    rcases List.mem_pair.mp ht with rfl | rfl
    · exact h2
    · exact h3)
  simp only [upgrade, fetch, get_modified, merge, get_conflicted, M_run_bind, M_run_pure,
    call_run_ok w _ true h1, call_run_ok w _ true h4, call_run_ok w _ true h5,
    call_run_nofail, hfe, accept_run, emit_run]
  simp [mainTrace, modifiedOf, conflictedOf]

/-- The conflict-state query is never among the commands spawned by
`accept`. -/
theorem conf_not_mem_acceptTrace (files : List String) :
    ["git", "diff", "--name-only", "--diff-filter=U"] ∉ acceptTrace files := by
  induction files with
  | nil => simp [acceptTrace]
  | cons fil rest ih => simp [acceptTrace, ih]

/-- C2: on a successful run the count passed to the reporter is
`len(ConflictedSet) - len(SafeSet)` for the values computed before any
resolution is attempted, and the conflict-state query is spawned exactly
once in the whole run — the conflict state is not re-queried after the
resolver runs. -/
theorem upgrade_report_count (w : World) (remote fro «to» : String)
    (h1 : (w ["git", "fetch", remote, "--tags"]).status = 0)
    (h2 : (w ["git", "fetch", remote, fro]).status = 0)
    (h3 : (w ["git", "fetch", remote, «to»]).status = 0)
    (h4 : (w ["git", "diff", fro, "--name-only"]).status = 0)
    (h5 : (w ["git", "diff", "--name-only", "--diff-filter=U"]).status = 0) :
    (upgrade w remote fro «to»).run ⟨[], []⟩ =
      .ok () ⟨mainTrace remote fro «to» ++
                acceptTrace (get_safe (conflictedOf w) (modifiedOf w fro)),
              print_advice (((conflictedOf w).length : Int) -
                ((get_safe (conflictedOf w) (modifiedOf w fro)).length : Int))⟩ ∧
      (mainTrace remote fro «to» ++
          acceptTrace (get_safe (conflictedOf w) (modifiedOf w fro))).count
        ["git", "diff", "--name-only", "--diff-filter=U"] = 1 := by
  constructor
  · simpa using upgrade_run_ok w remote fro «to» ⟨[], []⟩ h1 h2 h3 h4 h5
  · rw [List.count_append,
      List.count_eq_zero.mpr (conf_not_mem_acceptTrace (get_safe (conflictedOf w) (modifiedOf w fro)))]
    simp [mainTrace, List.count_cons]

/-- Witness for C2: in a world where every command succeeds with empty
output, the run succeeds, reports zero conflicts, and queried the conflict
state exactly once. -/
theorem upgrade_report_count_witness :
    (upgrade trivWorld "origin" "a" "b").run ⟨[], []⟩ =
      .ok () ⟨mainTrace "origin" "a" "b" ++
                acceptTrace (get_safe (conflictedOf trivWorld) (modifiedOf trivWorld "a")),
              print_advice (((conflictedOf trivWorld).length : Int) -
                ((get_safe (conflictedOf trivWorld) (modifiedOf trivWorld "a")).length : Int))⟩ ∧
      (mainTrace "origin" "a" "b" ++
          acceptTrace (get_safe (conflictedOf trivWorld) (modifiedOf trivWorld "a"))).count
        ["git", "diff", "--name-only", "--diff-filter=U"] = 1 :=
  upgrade_report_count trivWorld "origin" "a" "b" rfl rfl rfl rfl rfl

/-- C4: the pipeline spawns, in this fixed order: fetch of all tags, fetch
of the source reference, fetch of the target reference, the diff computing
the ModifiedSet (before the merge), the merge (invoked non-fatally: no
hypothesis on its exit status is needed), the diff computing the
ConflictedSet, then the resolver's checkout/add pairs; finally the report
is printed. -/
theorem upgrade_step_order (w : World) (remote fro «to» : String) (s : PState)
    (h1 : (w ["git", "fetch", remote, "--tags"]).status = 0)
    (h2 : (w ["git", "fetch", remote, fro]).status = 0)
    (h3 : (w ["git", "fetch", remote, «to»]).status = 0)
    (h4 : (w ["git", "diff", fro, "--name-only"]).status = 0)
    (h5 : (w ["git", "diff", "--name-only", "--diff-filter=U"]).status = 0) :
    (upgrade w remote fro «to»).run s =
      .ok () { trace := s.trace ++
                 ([["git", "fetch", remote, "--tags"],
                   ["git", "fetch", remote, fro],
                   ["git", "fetch", remote, «to»],
                   ["git", "diff", fro, "--name-only"],
                   ["git", "merge", "--no-ff", «to»],
                   ["git", "diff", "--name-only", "--diff-filter=U"]] ++
                  acceptTrace (get_safe (conflictedOf w) (modifiedOf w fro))),
               output := s.output ++ print_advice
                 (((conflictedOf w).length : Int) -
                   ((get_safe (conflictedOf w) (modifiedOf w fro)).length : Int)) } := by
  simpa [mainTrace, List.append_assoc] using upgrade_run_ok w remote fro «to» s h1 h2 h3 h4 h5

/-- Witness for C4: the concrete trace of a run in the all-succeeding
world, in pipeline order, ending with the zero-conflict advice. -/
theorem upgrade_step_order_witness :
    (upgrade trivWorld "origin" "a" "b").run ⟨[], []⟩ =
      .ok () ⟨[["git", "fetch", "origin", "--tags"],
               ["git", "fetch", "origin", "a"],
               ["git", "fetch", "origin", "b"],
               ["git", "diff", "a", "--name-only"],
               ["git", "merge", "--no-ff", "b"],
               ["git", "diff", "--name-only", "--diff-filter=U"]],
              print_advice 0⟩ :=
  upgrade_step_order trivWorld "origin" "a" "b" ⟨[], []⟩ rfl rfl rfl rfl rfl

/-- C8: if a fetch command fails (whichever of the three it is, given that
the earlier ones succeeded), the run terminates fatally with the fetch
diagnostic; at that point only fetch commands have been spawned — no merge,
checkout or add has run — and nothing has been printed. -/
theorem upgrade_fetch_failure_aborts (w : World) (remote fro «to» : String) :
    ((w ["git", "fetch", remote, "--tags"]).status ≠ 0 →
      (upgrade w remote fro «to»).run ⟨[], []⟩ =
        .error (errMsg (w ["git", "fetch", remote, "--tags"]).status
            ["git", "fetch", remote, "--tags"]
            (w ["git", "fetch", remote, "--tags"]).out
            (w ["git", "fetch", remote, "--tags"]).err)
          ⟨[["git", "fetch", remote, "--tags"]], []⟩ ∧
        ∀ cl ∈ [["git", "fetch", remote, "--tags"]], cl[1]? = some "fetch") ∧
    ((w ["git", "fetch", remote, "--tags"]).status = 0 →
      (w ["git", "fetch", remote, fro]).status ≠ 0 →
      (upgrade w remote fro «to»).run ⟨[], []⟩ =
        .error (errMsg (w ["git", "fetch", remote, fro]).status
            ["git", "fetch", remote, fro]
            (w ["git", "fetch", remote, fro]).out
            (w ["git", "fetch", remote, fro]).err)
          ⟨[["git", "fetch", remote, "--tags"], ["git", "fetch", remote, fro]], []⟩ ∧
        ∀ cl ∈ [["git", "fetch", remote, "--tags"], ["git", "fetch", remote, fro]],
          cl[1]? = some "fetch") ∧
    ((w ["git", "fetch", remote, "--tags"]).status = 0 →
      (w ["git", "fetch", remote, fro]).status = 0 →
      (w ["git", "fetch", remote, «to»]).status ≠ 0 →
      (upgrade w remote fro «to»).run ⟨[], []⟩ =
        .error (errMsg (w ["git", "fetch", remote, «to»]).status
            ["git", "fetch", remote, «to»]
            (w ["git", "fetch", remote, «to»]).out
            (w ["git", "fetch", remote, «to»]).err)
          ⟨[["git", "fetch", remote, "--tags"], ["git", "fetch", remote, fro],
            ["git", "fetch", remote, «to»]], []⟩ ∧
        ∀ cl ∈ [["git", "fetch", remote, "--tags"], ["git", "fetch", remote, fro],
            ["git", "fetch", remote, «to»]],
          cl[1]? = some "fetch") := by
  refine ⟨fun ht => ?_, fun h1 hf => ?_, fun h1 h2 hto => ?_⟩
  · refine ⟨?_, by simp⟩
    simp [upgrade, fetch, M_run_bind, call_run_fail w _ ht]
  · refine ⟨?_, by simp⟩
    simp [upgrade, fetch, fetchEach, M_run_bind, call_run_ok w _ true h1,
      call_run_fail w _ hf]
  · refine ⟨?_, by simp⟩
    simp [upgrade, fetch, fetchEach, M_run_bind, call_run_ok w _ true h1,
      call_run_ok w _ true h2, call_run_fail w _ hto]

/-- Witness for C8: in the all-failing world the first fetch aborts the run
with its diagnostic, with only that fetch spawned and nothing printed. -/
theorem upgrade_fetch_failure_aborts_witness :
    (upgrade failWorld "origin" "a" "b").run ⟨[], []⟩ =
      .error (errMsg 1 ["git", "fetch", "origin", "--tags"] "boom-out" "boom-err")
        ⟨[["git", "fetch", "origin", "--tags"]], []⟩ :=
  ((upgrade_fetch_failure_aborts failWorld "origin" "a" "b").1 (by decide)).1

end Upg
